import Mathlib

/-!
Verification of the metafix backend (scan orchestration, artwork detection,
provider aggregation, edition generation) against its natural-language
specification.  Each Lean definition below is a shallow embedding of one
Python function of the repository; the theorems settle the frozen claims.
-/

namespace Metafix

/-- Python truthiness of an `Optional[str]`: `None` and the empty string are
falsy, every other string is truthy. -/
def strTruthy : Option String → Bool
  | none => false
  | some s => !s.isEmpty

/-! ## Plex items (`src/backend/services/plex_service.py`, `PlexItem`) -/

/-- Embedding of the `PlexItem` dataclass (the fields the claims need). -/
structure PlexItem where
  rating_key : String
  title : String
  itemType : String
  guid : Option String
  thumb : Option String
  art : Option String
  edition_title : Option String
  guids : List String
deriving Repr, DecidableEq

/-- String prefix test (the semantics of Python's `str.startswith`, stated on
the character lists so that it is kernel-computable). -/
def strStartsWith (s pre : String) : Bool :=
  pre.data.isPrefixOf s.data

/-- `PlexItem.is_matched`: `guid` is truthy and does not start with `local://`. -/
def PlexItem.is_matched (it : PlexItem) : Bool :=
  match it.guid with
  | none => false
  | some g => if g.isEmpty then false else !(strStartsWith g "local://")

/-- `PlexItem.has_poster`: truthiness of the `thumb` path. -/
def PlexItem.has_poster (it : PlexItem) : Bool := strTruthy it.thumb

/-- `PlexItem.has_background`: truthiness of the `art` path. -/
def PlexItem.has_background (it : PlexItem) : Bool := strTruthy it.art

/-! ## Scan rows and the terminal-transition writers
(`src/backend/services/scan_manager.py`) -/

/-- The mutable columns of a `Scan` row that the terminal transitions of
`ScanManager` write (`_mark_scan_completed`, `_mark_scan_cancelled`,
`_mark_scan_failed`).  Timestamps are abstracted to naturals. -/
structure ScanRow where
  status : String
  processed_items : Nat
  issues_found : Nat
  editions_updated : Nat
  completed_at : Option Nat
  checkpoint : Option String
deriving Repr, DecidableEq

/-- `ScanManager._mark_scan_completed`: sets `status="completed"`, the final
counters, `completed_at`, and `checkpoint=None`. -/
def markScanCompleted (row : ScanRow) (now processed issues editions : Nat) : ScanRow :=
  { row with
    status := "completed"
    processed_items := processed
    issues_found := issues
    editions_updated := editions
    completed_at := some now
    checkpoint := none }

/-- `ScanManager._mark_scan_cancelled`: sets `status="cancelled"` and
`completed_at`; the `checkpoint` column is not written. -/
def markScanCancelled (row : ScanRow) (now : Nat) : ScanRow :=
  { row with
    status := "cancelled"
    completed_at := some now }

/-- `ScanManager._mark_scan_failed`: sets `status="failed"` and
`completed_at`; the `checkpoint` column is not written. -/
def markScanFailed (row : ScanRow) (now : Nat) : ScanRow :=
  { row with
    status := "failed"
    completed_at := some now }

/-- `ScanManager._save_checkpoint`: persists counters and a JSON checkpoint
(the JSON text is abstracted to a string). -/
def saveCheckpoint (row : ScanRow) (processed issues editions : Nat) (cp : String) : ScanRow :=
  { row with
    processed_items := processed
    issues_found := issues
    editions_updated := editions
    checkpoint := some cp }

/-! ## Edition backups (`src/backend/services/edition_manager.py`) -/

/-- An `EditionBackup` row. -/
structure EditionBackup where
  plex_rating_key : String
  title : String
  original_edition : Option String
deriving Repr, DecidableEq

/-- Whether the backup table holds a row for the given rating key. -/
def hasBackup (db : List EditionBackup) (key : String) : Bool :=
  db.any (fun b => b.plex_rating_key == key)

/-- Result of `PlexService.get_item_metadata` as observed by
`EditionManager.backup_edition`: `none` covers both an empty `Metadata`
container and any exception (the method catches everything and returns
`None`). -/
structure FetchedItem where
  title : String
  edition_title : Option String
deriving Repr, DecidableEq

/-- `EditionManager.backup_edition`: if a backup row for the key already
exists, return; otherwise fetch the item metadata, and if that yields an
item, insert a backup row recording its current edition title.  When the
metadata fetch yields nothing, no row is inserted. -/
def backup_edition (db : List EditionBackup) (key : String)
    (fetched : Option FetchedItem) : List EditionBackup :=
  if hasBackup db key then db
  else
    match fetched with
    | none => db
    | some it => db ++ [⟨key, it.title, it.edition_title⟩]

/-- `EditionManager.apply_edition`: runs `backup_edition` first, then always
calls `plex.set_edition`.  The returned pair is the backup table at the
moment of the `set_edition` write, together with the written string. -/
def apply_edition (db : List EditionBackup) (key : String)
    (fetched : Option FetchedItem) (edition_string : String) :
    List EditionBackup × String :=
  let db2 := backup_edition db key fetched
  (db2, edition_string)

/-! ## Artwork defect detector (`src/backend/services/artwork_scanner.py`) -/

/-- The `IssueType` enum of the artwork scanner. -/
inductive IssueType where
  | NO_MATCH
  | NO_POSTER
  | NO_BACKGROUND
  | NO_LOGO
  | PLACEHOLDER_POSTER
  | PLACEHOLDER_BACKGROUND
deriving Repr, DecidableEq

/-- The check flags handed to the `ArtworkScanner` constructor. -/
structure ScannerCfg where
  check_posters : Bool
  check_backgrounds : Bool
  check_logos : Bool
  check_unmatched : Bool
  check_placeholders : Bool
deriving Repr, DecidableEq

/-- Outcome oracle for the scanner's HTTP image fetches: the n-th fetch the
instance performs either fails (`none`, covering network errors and
undecodable bytes, which the scanner catches) or decodes to a
width × height pair. -/
abbrev FetchOracle := Nat → Option (Int × Int)

/-- Per-instance scanner state: the `_aspect_ratio_cache` dict, plus
instrumentation recording every HTTP fetch the instance performed (the
fetch counter indexes the oracle; the log lists fetched image paths in
order). -/
structure ScannerState where
  cache : List (String × ℚ)
  fetchCount : Nat
  fetchLog : List String
deriving Repr, DecidableEq

/-- A fresh `ArtworkScanner` instance: empty cache, no fetches yet. -/
def ScannerState.init : ScannerState := ⟨[], 0, []⟩

/-- `ArtworkScanner._get_image_aspect_ratio`: answer from the cache when the
path is present; otherwise perform one HTTP fetch.  A failed fetch returns
`None` and caches nothing; a decoded image with zero height also returns
`None` uncached; otherwise the ratio `w/h` is cached and returned. -/
def getImageAspect (oracle : FetchOracle) (st : ScannerState) (path : String) :
    Option ℚ × ScannerState :=
  match st.cache.lookup path with
  | some r => (some r, st)
  | none =>
    let st2 : ScannerState :=
      { st with fetchCount := st.fetchCount + 1, fetchLog := st.fetchLog ++ [path] }
    match oracle st.fetchCount with
    | none => (none, st2)
    | some (w, h) =>
      if h = 0 then (none, st2)
      else
        let r : ℚ := (w : ℚ) / (h : ℚ)
        (some r, { st2 with cache := st2.cache ++ [(path, r)] })

/-- The pure classification step of `_check_placeholder_poster` once a ratio
is known: landscape (`> 1.0`) is flagged; a ratio inside
`0.667 × (1 ± 0.15)` is accepted; otherwise flag iff `> 0.9` or `< 0.4`. -/
def posterPlaceholderRule (r : ℚ) : Bool :=
  if r > 1 then true
  else
    if 0.667 * (1 - 0.15) ≤ r ∧ r ≤ 0.667 * (1 + 0.15) then false
    else if r > 0.9 ∨ r < 0.4 then true
    else false

/-- The pure classification step of `_check_placeholder_background`: flag iff
the ratio is `< 1.0` (portrait) or `< 1.2` (too narrow). -/
def backgroundPlaceholderRule (r : ℚ) : Bool :=
  if r < 1 then true
  else if r < 1.2 then true
  else false

/-- `ArtworkScanner._check_placeholder_poster`: no thumb path → `False`;
undetermined ratio → `False`; otherwise the pure rule. -/
def checkPlaceholderPoster (oracle : FetchOracle) (st : ScannerState)
    (it : PlexItem) : Bool × ScannerState :=
  match it.thumb with
  | none => (false, st)
  | some t =>
    if t.isEmpty then (false, st)
    else
      let out := getImageAspect oracle st t
      match out.1 with
      | none => (false, out.2)
      | some r => (posterPlaceholderRule r, out.2)

/-- `ArtworkScanner._check_placeholder_background`: no art path → `False`;
undetermined ratio → `False`; otherwise the pure rule. -/
def checkPlaceholderBackground (oracle : FetchOracle) (st : ScannerState)
    (it : PlexItem) : Bool × ScannerState :=
  match it.art with
  | none => (false, st)
  | some a =>
    if a.isEmpty then (false, st)
    else
      let out := getImageAspect oracle st a
      match out.1 with
      | none => (false, out.2)
      | some r => (backgroundPlaceholderRule r, out.2)

/-- `ArtworkScanner.scan_item`: unmatched short-circuit, then the missing
poster/background checks, then the two placeholder checks (each may fetch
an image through the shared per-instance cache). -/
def scanItem (cfg : ScannerCfg) (oracle : FetchOracle) (st : ScannerState)
    (it : PlexItem) : List IssueType × ScannerState :=
  if cfg.check_unmatched && !it.is_matched then
    ([IssueType.NO_MATCH], st)
  else
    let issues1 : List IssueType :=
      if cfg.check_posters && !it.has_poster then [IssueType.NO_POSTER] else []
    let issues2 : List IssueType :=
      issues1 ++
        (if cfg.check_backgrounds && !it.has_background then
          [IssueType.NO_BACKGROUND] else [])
    let step3 : List IssueType × ScannerState :=
      if cfg.check_placeholders && it.has_poster then
        let out := checkPlaceholderPoster oracle st it
        (issues2 ++ (if out.1 then [IssueType.PLACEHOLDER_POSTER] else []), out.2)
      else (issues2, st)
    let step4 : List IssueType × ScannerState :=
      if cfg.check_placeholders && it.has_background then
        let out := checkPlaceholderBackground oracle step3.2 it
        (step3.1 ++ (if out.1 then [IssueType.PLACEHOLDER_BACKGROUND] else []), out.2)
      else step3
    step4

/-- A sequence of `scan_item` calls against one scanner instance (as the scan
engine performs during a scan), threading the per-instance state. -/
def scanSeq (cfg : ScannerCfg) (oracle : FetchOracle) (items : List PlexItem)
    (st : ScannerState) : ScannerState :=
  match items with
  | [] => st
  | it :: rest => scanSeq cfg oracle rest (scanItem cfg oracle st it).2

/-! ## Edition metadata and the Resolution module
(`src/backend/services/edition/modules/base.py`, `video.py`) -/

/-- One entry of the `Media` array of an item's raw metadata (the fields the
Resolution module reads; absent JSON keys are `none`). -/
structure MediaEntry where
  videoResolution : Option String
  width : Option Int
  height : Option Int
  bitrate : Option Int
deriving Repr, DecidableEq

/-- The raw item metadata blob handed to edition modules: its `Media` array. -/
structure ItemMetadata where
  mediaList : List MediaEntry
deriving Repr, DecidableEq

/-- Upper-casing a string character-wise (the semantics of `str.upper` used
by the Resolution fallback, stated on the character list so that it is
kernel-computable). -/
def strUpper (s : String) : String :=
  ⟨s.data.map Char.toUpper⟩

/-- `BaseEditionModule._get_main_media`: `None` on an empty `Media` array,
else the head of the array stably sorted by `bitrate` descending (Python's
`sorted(..., reverse=True)` is stable, as is `insertionSort` with the
reflexive descending relation). -/
def mainMedia (m : ItemMetadata) : Option MediaEntry :=
  match m.mediaList with
  | [] => none
  | _ =>
    (m.mediaList.insertionSort
      (fun a b => b.bitrate.getD 0 ≤ a.bitrate.getD 0)).head?

/-- The `RESOLUTION_MAP` dict of `ResolutionModule`, in declaration order. -/
def resolutionLadder : List ((Int × Int) × String) :=
  [((7680, 4320), "8K"), ((3840, 2160), "4K"), ((2560, 1440), "2K"),
   ((1920, 1080), "1080p"), ((1280, 720), "720p"), ((720, 576), "576p"),
   ((720, 480), "480p")]

/-- The ladder loop of `ResolutionModule.extract`: first entry whose width or
height clears 85 percent of the ladder dimensions wins; exhaustion yields
`SD`. -/
def ladderLookup (width height : Int) : List ((Int × Int) × String) → String
  | [] => "SD"
  | (wh, label) :: rest =>
    if (width : ℚ) ≥ 0.85 * (wh.1 : ℚ) ∨ (height : ℚ) ≥ 0.85 * (wh.2 : ℚ) then label
    else ladderLookup width height rest

/-- `ResolutionModule.extract`: `None` without a main media entry or without
a truthy `videoResolution`; string-label fallback when width or height is
zero; otherwise the `(width, height)` ladder. -/
def resolutionExtract (m : ItemMetadata) : Option String :=
  match mainMedia m with
  | none => none
  | some media =>
    if !strTruthy media.videoResolution then none
    else
      let width := media.width.getD 0
      let height := media.height.getD 0
      if width = 0 ∨ height = 0 then
        let resLabel := media.videoResolution.getD ""
        if resLabel = "4k" then some "4K"
        else if resLabel = "1080" then some "1080p"
        else if resLabel = "720" then some "720p"
        else if resLabel = "sd" then some "SD"
        else some (strUpper resLabel)
      else some (ladderLookup width height resolutionLadder)

/-! ## Provider results and the TMDB provider
(`src/backend/services/providers/base.py`, `tmdb.py`) -/

/-- The artwork kinds requested from providers (`ArtworkType`). -/
inductive ArtworkKind where
  | poster
  | background
  | logo
deriving Repr, DecidableEq

/-- The `ArtworkResult` pydantic model (provider sources as strings, which is
what the aggregator's sort key reads via `.value`). -/
structure ArtworkResult where
  source : String
  artwork_type : ArtworkKind
  image_url : String
  thumbnail_url : Option String
  language : Option String
  score : ℤ
  set_name : Option String
  creator_name : Option String
deriving Repr, DecidableEq

/-- One entry of the TMDB images payload (`posters`/`backdrops`/`logos`). -/
structure TMDBImage where
  file_path : Option String
  iso_639_1 : Option String
  vote_average : Option ℚ
deriving Repr, DecidableEq

/-- The TMDB images payload; a `none` field models the JSON key being
absent. -/
structure TMDBImagesPayload where
  posters : Option (List TMDBImage)
  backdrops : Option (List TMDBImage)
  logos : Option (List TMDBImage)
deriving Repr, DecidableEq

/-- Python `int()` applied to a number: truncation toward zero. -/
def pyTrunc (q : ℚ) : ℤ :=
  if 0 ≤ q then Int.floor q else Int.ceil q

/-- The score computation of `TMDBProvider._parse_response`:
`int(item.get("vote_average", 0) * 10)`. -/
def tmdbScore (v : ℚ) : ℤ := pyTrunc (v * 10)

/-- The suggestion `_parse_response` builds for one TMDB image entry. -/
def mkTMDBResult (base : String) (t : ArtworkKind) (img : TMDBImage) : ArtworkResult :=
  { source := "tmdb"
    artwork_type := t
    image_url := base ++ "original" ++ img.file_path.getD ""
    thumbnail_url := some (base ++ "w500" ++ img.file_path.getD "")
    language := img.iso_639_1
    score := tmdbScore (img.vote_average.getD 0)
    set_name := none
    creator_name := none }

/-- The `type_mapping` lookup of `_parse_response` (`key in data`). -/
def tmdbKeyImages (data : TMDBImagesPayload) : ArtworkKind → Option (List TMDBImage)
  | ArtworkKind.poster => data.posters
  | ArtworkKind.background => data.backdrops
  | ArtworkKind.logo => data.logos

/-- `TMDBProvider._parse_response`: for every requested artwork kind whose
payload key is present, one suggestion per image entry with a truthy
`file_path`. -/
def parseResponse (data : TMDBImagesPayload) (base : String)
    (artworkTypes : List ArtworkKind) : List ArtworkResult :=
  (artworkTypes.map (fun t =>
    match tmdbKeyImages data t with
    | none => []
    | some imgs =>
      imgs.filterMap (fun img =>
        if strTruthy img.file_path then some (mkTMDBResult base t img) else none))).flatten

/-! ## Provider aggregation (`src/backend/services/artwork_service.py`) -/

/-- The last index at which `name` occurs in the list, starting the count at
`i` (the semantics of building `{name: i for i, name in enumerate(l)}` and
reading it back: a duplicate name keeps its last index). -/
def priorityIndexAux (name : String) : List String → Int → Option Int
  | [], _ => none
  | p :: rest, i =>
    match priorityIndexAux name rest (i + 1) with
    | some j => some j
    | none => if p == name then some i else none

/-- `priority_map.get(item.source.value, 999)`: index of the source in the
configured priority list, with the sentinel 999 for absent names. -/
def priorityIndex (priority : List String) (name : String) : Int :=
  (priorityIndexAux name priority 0).getD 999

/-- The sort key of `ArtworkService.get_artwork`:
`(priority_index_of_source, -score)`. -/
def sortKey (priority : List String) (r : ArtworkResult) : Int × Int :=
  (priorityIndex priority r.source, -r.score)

/-- Python tuple ordering on int pairs (non-strict). -/
def pairLexLe (x y : Int × Int) : Prop :=
  x.1 < y.1 ∨ (x.1 = y.1 ∧ x.2 ≤ y.2)

instance (x y : Int × Int) : Decidable (pairLexLe x y) := by
  unfold pairLexLe
  infer_instance

/-- The comparison `all_results.sort(key=sort_key)` sorts by. -/
def artworkSortLe (priority : List String) (a b : ArtworkResult) : Prop :=
  pairLexLe (sortKey priority a) (sortKey priority b)

instance (pl : List String) : DecidableRel (artworkSortLe pl) := by
  intro a b
  unfold artworkSortLe
  infer_instance

/-- The result-collection loop of `get_artwork`: provider outcomes are taken
in provider-registration order; an outcome that is an exception is logged
and skipped, a list outcome is concatenated. -/
def collectResults : List (Except String (List ArtworkResult)) → List ArtworkResult
  | [] => []
  | Except.error _ :: rest => collectResults rest
  | Except.ok l :: rest => l ++ collectResults rest

/-- `ArtworkService.get_artwork` after the fan-out: concatenate the provider
results and stable-sort them by `(priority_index, -score)` (Python's
`list.sort` is stable, as is `insertionSort`). -/
def getArtwork (priority : List String) (results : List (Except String (List ArtworkResult))) :
    List ArtworkResult :=
  (collectResults results).insertionSort (artworkSortLe priority)

/-! ## Edition generation (`src/backend/services/edition_manager.py`) -/

/-- The exceptions `PlexService._request` raises: `PlexAuthenticationError`
on HTTP 401 and `PlexConnectionError` otherwise. -/
inductive PlexError where
  | auth
  | conn
deriving Repr, DecidableEq

/-- `EditionManager.generate_edition`: the metadata fetch through
`plex._request` either raises (the surrounding `try/except` catches
everything, logs, and returns `None` — an HTTP 401 included) or yields the
`MediaContainer.Metadata` array; an empty array yields `None`; otherwise the
enabled modules run in order on the first entry (a module exception is
caught and skipped, modelled by the module returning `none`), falsy outputs
are skipped, and the parts are joined with the configured separator
(`None` when no module produced output). -/
def generateEdition (modules : List (ItemMetadata → Option String)) (sep : String)
    (fetch : Except PlexError (List ItemMetadata)) : Option String :=
  match fetch with
  | Except.error _ => none
  | Except.ok [] => none
  | Except.ok (m :: _) =>
    let parts := modules.filterMap (fun f =>
      match f m with
      | none => none
      | some v => if v.isEmpty then none else some v)
    if parts.isEmpty then none
    else some (String.intercalate sep parts)

/-! ## The scan engine loop (`src/backend/services/scan_manager.py`,
`ScanManager._execute_scan` and `run_scan`) -/

/-- One item as the scan engine sees it: the Plex item plus the outcome of
the `plex._request` metadata fetch that `generate_edition` would perform for
it. -/
structure EngineItem where
  item : PlexItem
  editionFetch : Except PlexError (List ItemMetadata)
deriving Repr

/-- The terminal status the scan row ends in. -/
inductive ScanFinal where
  | completed
  | cancelled
  | failed
deriving Repr, DecidableEq

/-- One read of the `_cancel_requested` flag.  `cancel_scan` only ever flips
the flag from false to true, so the reads are modelled by the index
`cancelFrom` of the first read that observes true (`none`: never set). -/
def cancelRead (cf : Option Nat) (k : Nat) : Bool :=
  match cf with
  | none => false
  | some c => decide (c ≤ k)

/-- The mutable state of the per-item loop: the next flag-read index, the
progress counters, the shared scanner instance, the broadcast log, and a
ghost counter of `PlexAuthenticationError` raises observed during
execution. -/
structure EngineState where
  k : Nat
  processed : Nat
  issues : Nat
  editions : Nat
  scanner : ScannerState
  broadcasts : List String
  authSeen : Nat
deriving Repr, DecidableEq

/-- The item-counting loop of `_execute_scan`: per library, one flag read
(break on true), then the `get_all_library_items` fetch whose exception
propagates.  Returns the fetched libraries (or the propagated error) and the
next flag-read index. -/
def countLoop (cf : Option Nat) :
    List (Except PlexError (List EngineItem)) → Nat →
    Except PlexError (List (List EngineItem)) × Nat
  | [], k => (Except.ok [], k)
  | f :: rest, k =>
    if cancelRead cf k then (Except.ok [], k + 1)
    else
      match f with
      | Except.error e => (Except.error e, k + 1)
      | Except.ok items =>
        match countLoop cf rest (k + 1) with
        | (Except.error e, k2) => (Except.error e, k2)
        | (Except.ok libs, k2) => (Except.ok (items :: libs), k2)

/-- The body of the per-item `try` block: artwork scan through the shared
scanner when the scan kind includes artwork; edition generation and apply
for movies when it includes editions (`editions_updated` increments when the
generated string is non-`None` and differs from the current edition title);
progress counters and the every-5-items progress broadcast.  The ghost
`authSeen` counter records a 401 raised (and caught) inside the edition
metadata fetch. -/
def processItem (cfg : ScannerCfg) (oracle : FetchOracle)
    (modules : List (ItemMetadata → Option String)) (sep : String)
    (ra re ee : Bool) (st : EngineState) (eit : EngineItem) : EngineState :=
  let artScan :=
    if ra then scanItem cfg oracle st.scanner eit.item else ([], st.scanner)
  let editionBranch : Bool := re && ee && (eit.item.itemType == "movie")
  let editionsDelta : Nat :=
    if editionBranch then
      match generateEdition modules sep eit.editionFetch with
      | none => 0
      | some ed => if ed ≠ eit.item.edition_title.getD "" then 1 else 0
    else 0
  let authDelta : Nat :=
    if editionBranch then
      match eit.editionFetch with
      | Except.error PlexError.auth => 1
      | _ => 0
    else 0
  let processed2 := st.processed + 1
  { st with
    processed := processed2
    issues := st.issues + artScan.1.length
    editions := st.editions + editionsDelta
    scanner := artScan.2
    broadcasts :=
      if processed2 % 5 == 0 then st.broadcasts ++ ["scan_progress"]
      else st.broadcasts
    authSeen := st.authSeen + authDelta }

/-- The inner per-item loop: one flag read per item — observing true takes
the `_mark_scan_cancelled` path (second component true) — otherwise the item
is processed and the loop continues. -/
def itemsLoop (cfg : ScannerCfg) (oracle : FetchOracle)
    (modules : List (ItemMetadata → Option String)) (sep : String)
    (ra re ee : Bool) (cf : Option Nat) :
    List EngineItem → EngineState → EngineState × Bool
  | [], st => (st, false)
  | eit :: rest, st =>
    if cancelRead cf st.k then ({ st with k := st.k + 1 }, true)
    else
      itemsLoop cfg oracle modules sep ra re ee cf rest
        (processItem cfg oracle modules sep ra re ee { st with k := st.k + 1 } eit)

/-- The outer per-library loop: one flag read per library — observing true
merely breaks (falling through to `_mark_scan_completed`) — otherwise the
inner loop runs and a cancellation observed there ends the scan. -/
def libsLoop (cfg : ScannerCfg) (oracle : FetchOracle)
    (modules : List (ItemMetadata → Option String)) (sep : String)
    (ra re ee : Bool) (cf : Option Nat) :
    List (List EngineItem) → EngineState → EngineState × Bool
  | [], st => (st, false)
  | items :: rest, st =>
    if cancelRead cf st.k then ({ st with k := st.k + 1 }, false)
    else
      let res := itemsLoop cfg oracle modules sep ra re ee cf items
        { st with k := st.k + 1 }
      if res.2 then (res.1, true)
      else libsLoop cfg oracle modules sep ra re ee cf rest res.1

/-- The configuration of one scan run plus the environment oracles: scan
kinds, the per-library fetch outcomes, and the flag schedule. -/
structure ScanInput where
  runArtwork : Bool
  runEdition : Bool
  editionEnabled : Bool
  libraryFetch : List (Except PlexError (List EngineItem))
  cancelFrom : Option Nat

/-- The observable outcome of one scan run: terminal row status, counters,
the number of flag reads performed, the broadcast log, whether the terminal
transition set `completed_at` (all three do), and the ghost 401 counter. -/
structure ScanOutcome where
  finalStatus : ScanFinal
  processed : Nat
  total : Nat
  issues : Nat
  editions : Nat
  kEnd : Nat
  broadcasts : List String
  completedAtSet : Bool
  authSeen : Nat
deriving Repr, DecidableEq

/-- `run_scan` around `_execute_scan`: an exception escaping the counting
phase is caught by `run_scan`, which marks the scan failed; otherwise the
totals are persisted and broadcast, the two loops run, and the scan is
finalized through `_mark_scan_cancelled` when the inner loop observed the
flag — through `_mark_scan_completed` in every other case, a break at the
library-boundary read included.  Checkpoint persistence is omitted: it does
not influence control flow or any field modelled here. -/
def executeScan (cfg : ScannerCfg) (oracle : FetchOracle)
    (modules : List (ItemMetadata → Option String)) (sep : String)
    (inp : ScanInput) : ScanOutcome :=
  match countLoop inp.cancelFrom inp.libraryFetch 0 with
  | (Except.error e, k) =>
    { finalStatus := ScanFinal.failed, processed := 0, total := 0, issues := 0,
      editions := 0, kEnd := k, broadcasts := ["scan_failed"],
      completedAtSet := true,
      authSeen := if e = PlexError.auth then 1 else 0 }
  | (Except.ok libs, k0) =>
    let total := (libs.map List.length).sum
    let st0 : EngineState := ⟨k0, 0, 0, 0, ScannerState.init, ["scan_progress"], 0⟩
    let res := libsLoop cfg oracle modules sep inp.runArtwork inp.runEdition
      inp.editionEnabled inp.cancelFrom libs st0
    if res.2 then
      { finalStatus := ScanFinal.cancelled, processed := res.1.processed,
        total := total, issues := res.1.issues, editions := res.1.editions,
        kEnd := res.1.k, broadcasts := res.1.broadcasts ++ ["scan_cancelled"],
        completedAtSet := true, authSeen := res.1.authSeen }
    else
      { finalStatus := ScanFinal.completed, processed := res.1.processed,
        total := total, issues := res.1.issues, editions := res.1.editions,
        kEnd := res.1.k, broadcasts := res.1.broadcasts ++ ["scan_completed"],
        completedAtSet := true, authSeen := res.1.authSeen }

/-- The first error among the per-library fetch outcomes (the one the
enumeration phase would raise). -/
def firstError : List (Except PlexError (List EngineItem)) → Option PlexError
  | [] => none
  | Except.error e :: _ => some e
  | Except.ok _ :: rest => firstError rest

/-- Whether an `Except` outcome is a success. -/
def exceptIsOk {ε α : Type} : Except ε α → Bool
  | Except.ok _ => true
  | Except.error _ => false

end Metafix

namespace Metafix

/-- Claim C1: as stated, every terminal transition (completed, cancelled, or
failed) would leave `checkpoint = null`.  The code only nulls the checkpoint
in `_mark_scan_completed`; `_mark_scan_cancelled` and `_mark_scan_failed` do
not touch the column, so a previously persisted checkpoint survives.  This
closed counterexample exhibits a scan row with a persisted checkpoint that,
after the cancelled and failed transitions, still carries it. -/
theorem checkpoint_survives_cancel_and_fail :
    let row : ScanRow :=
      saveCheckpoint ⟨"running", 0, 0, 0, none, none⟩ 100 3 2 "cp-json"
    (markScanCancelled row 7).checkpoint = some "cp-json" ∧
    (markScanCancelled row 7).status = "cancelled" ∧
    (markScanFailed row 7).checkpoint = some "cp-json" ∧
    (markScanFailed row 7).status = "failed" := by
  refine ⟨rfl, rfl, rfl, rfl⟩

/-- Claim C1 (amended): only the completed transition nulls the `checkpoint`
column; the cancelled and failed transitions set the terminal status and
`completed_at` but leave the previously persisted checkpoint value in place. -/
theorem terminal_transition_checkpoint (row : ScanRow)
    (now processed issues editions : Nat) :
    (markScanCompleted row now processed issues editions).checkpoint = none ∧
    (markScanCompleted row now processed issues editions).status = "completed" ∧
    (markScanCancelled row now).checkpoint = row.checkpoint ∧
    (markScanCancelled row now).status = "cancelled" ∧
    (markScanCancelled row now).completed_at = some now ∧
    (markScanFailed row now).checkpoint = row.checkpoint ∧
    (markScanFailed row now).status = "failed" ∧
    (markScanFailed row now).completed_at = some now := by
  refine ⟨rfl, rfl, rfl, rfl, rfl, rfl, rfl, rfl⟩

/-- Claim C2: as stated, every `apply_edition` write would be preceded by an
existing backup row for the same item key.  Counterexample: when
`get_item_metadata` yields nothing (empty container or a swallowed
exception), `backup_edition` inserts no row, yet `apply_edition` still
performs the `set_edition` write — with an empty backup table. -/
theorem apply_edition_without_backup :
    hasBackup (apply_edition [] "k1" none "4K . Special Edition").1 "k1" = false ∧
    (apply_edition [] "k1" none "4K . Special Edition").2 = "4K . Special Edition" := by
  exact ⟨rfl, rfl⟩

/-- Claim C2 (amended): whenever the item-metadata fetch inside
`backup_edition` yields an item, a backup row for the item key exists at the
moment `apply_edition` performs the `set_edition` write — the preexisting
one if present, otherwise a fresh row recording the item's current edition
title. -/
theorem apply_edition_backup_exists (db : List EditionBackup) (key : String)
    (it : FetchedItem) (edition_string : String) :
    hasBackup (apply_edition db key (some it) edition_string).1 key = true := by
  unfold apply_edition backup_edition
  by_cases h : hasBackup db key
  · simp [h]
  · simp only [h, Bool.false_eq_true, if_false]
    unfold hasBackup at *
    simp [List.any_append]

/-- Witness for the amended C2 theorem at a concrete input: an empty backup
table, a fetched item with a current edition title. -/
theorem apply_edition_backup_exists_witness :
    hasBackup (apply_edition [] "k2" (some ⟨"Blade Runner", some "Final Cut"⟩) "4K").1 "k2"
      = true :=
  apply_edition_backup_exists [] "k2" ⟨"Blade Runner", some "Final Cut"⟩ "4K"

/-- The poster placeholder classification flags a known ratio exactly when it
is `> 1.0`, `> 0.9` or `< 0.4` (the explicit accept band `0.667 × (1 ± 0.15)`
lies strictly inside `[0.4, 0.9]`, so it removes nothing from that
condition). -/
theorem posterPlaceholderRule_iff (r : ℚ) :
    posterPlaceholderRule r = true ↔ (1 < r ∨ 0.9 < r ∨ r < 0.4) := by
  unfold posterPlaceholderRule
  split_ifs with h1 h2 h3
  · simp only [true_iff]
    exact Or.inl h1
  · simp only [Bool.false_eq_true, false_iff]
    rcases h2 with ⟨hlo, hhi⟩
    push_neg
    refine ⟨by nlinarith, by nlinarith, by nlinarith⟩
  · simp only [true_iff]
    rcases h3 with h | h
    · exact Or.inr (Or.inl h)
    · exact Or.inr (Or.inr h)
  · simp only [Bool.false_eq_true, false_iff]
    push_neg at h1 h3 ⊢
    exact ⟨h1, h3.1, h3.2⟩

/-- Claim C6: for an item that reaches the placeholder check with a poster
whose aspect ratio is determined as `r`, `scan_item` emits
`placeholder_poster` iff `r > 1.0` or `r > 0.9` or `r < 0.4`; and any `r`
inside `2/3 × (1 ± 0.15)` is accepted and never flagged. -/
theorem scan_item_placeholder_poster_iff (cfg : ScannerCfg) (oracle : FetchOracle)
    (st : ScannerState) (it : PlexItem) (t : String) (r : ℚ)
    (hnm : (cfg.check_unmatched && !it.is_matched) = false)
    (hph : cfg.check_placeholders = true)
    (ht : it.thumb = some t) (hte : t.isEmpty = false)
    (hr : (getImageAspect oracle st t).1 = some r) :
    (IssueType.PLACEHOLDER_POSTER ∈ (scanItem cfg oracle st it).1 ↔
      (1 < r ∨ 0.9 < r ∨ r < 0.4)) ∧
    (2 / 3 * (1 - 0.15) ≤ r → r ≤ 2 / 3 * (1 + 0.15) →
      IssueType.PLACEHOLDER_POSTER ∉ (scanItem cfg oracle st it).1) := by
  have hps : it.has_poster = true := by
    simp [PlexItem.has_poster, strTruthy, ht, hte]
  have hcp : checkPlaceholderPoster oracle st it =
      (posterPlaceholderRule r, (getImageAspect oracle st t).2) := by
    simp [checkPlaceholderPoster, ht, hte, hr]
  have hmem : IssueType.PLACEHOLDER_POSTER ∈ (scanItem cfg oracle st it).1 ↔
      posterPlaceholderRule r = true := by
    unfold scanItem
    simp only [hnm, Bool.false_eq_true, if_false, hph, hps, hcp, Bool.true_and,
      Bool.not_true, Bool.and_false, if_true]
    cases hpp : posterPlaceholderRule r <;>
      · repeat' split
        all_goals simp_all
  constructor
  · exact hmem.trans (posterPlaceholderRule_iff r)
  · intro hlo hhi hin
    have := (hmem.trans (posterPlaceholderRule_iff r)).mp hin
    rcases this with h | h | h
    · nlinarith
    · nlinarith
    · nlinarith

/-- Witness for the C6 theorem: a matched item whose poster decodes to a
1920 × 1080 image (ratio 16/9), which the detector flags. -/
theorem scan_item_placeholder_poster_iff_witness :
    IssueType.PLACEHOLDER_POSTER ∈
      (scanItem ⟨true, true, true, true, true⟩ (fun _ => some (1920, 1080))
        ScannerState.init
        ⟨"1", "S3", "movie", some "plex://m1", some "/thumb1", none, none, []⟩).1 := by
  refine ((scan_item_placeholder_poster_iff ⟨true, true, true, true, true⟩
      (fun _ => some (1920, 1080)) ScannerState.init
      ⟨"1", "S3", "movie", some "plex://m1", some "/thumb1", none, none, []⟩
      "/thumb1" (16 / 9) (by decide) rfl rfl rfl
      (by norm_num [getImageAspect, ScannerState.init])).1).mpr (by norm_num)

/-- Claim C9: if `scan_item` emits `no_match`, it emits nothing else — the
result is exactly the singleton `no_match` list (and the unmatched branch
performs no image fetch, leaving the scanner state untouched). -/
theorem scan_item_no_match_short_circuit (cfg : ScannerCfg) (oracle : FetchOracle)
    (st : ScannerState) (it : PlexItem)
    (h : IssueType.NO_MATCH ∈ (scanItem cfg oracle st it).1) :
    (scanItem cfg oracle st it) = ([IssueType.NO_MATCH], st) := by
  unfold scanItem at h ⊢
  by_cases hc : (cfg.check_unmatched && !it.is_matched) = true
  · simp [hc]
  · exfalso
    simp only [hc, Bool.false_eq_true, if_false] at h
    repeat' split at h
    all_goals simp_all

/-- Auxiliary: `List.lookup` over an append first consults the left list. -/
theorem lookup_append_or {β : Type} (l1 l2 : List (String × β)) (p : String) :
    (l1 ++ l2).lookup p = ((l1.lookup p).or (l2.lookup p)) := by
  induction l1 with
  | nil => simp
  | cons a t ih =>
    by_cases h : (p == a.1) = true <;> simp [List.lookup, h, ih]

/-- The state invariant maintained by the scanner when every fetch succeeds:
the fetch log has no duplicates and every fetched path has been memoized. -/
def ScannerInv (st : ScannerState) : Prop :=
  st.fetchLog.Nodup ∧ ∀ p ∈ st.fetchLog, (st.cache.lookup p).isSome

/-- A fetch oracle is reliable when every fetch decodes to an image of
nonzero height. -/
def ReliableOracle (oracle : FetchOracle) : Prop :=
  ∀ n, ∃ w h, oracle n = some (w, h) ∧ h ≠ 0

/-- `_get_image_aspect_ratio` preserves the scanner invariant under a
reliable oracle: a cached path changes nothing, and an uncached path is
fetched once and immediately memoized. -/
theorem getImageAspect_inv (oracle : FetchOracle) (hrel : ReliableOracle oracle)
    (st : ScannerState) (path : String) (hinv : ScannerInv st) :
    ScannerInv (getImageAspect oracle st path).2 := by
  unfold getImageAspect
  cases hc : st.cache.lookup path with
  | some r => simpa using hinv
  | none =>
    obtain ⟨w, h, hor, hne⟩ := hrel st.fetchCount
    have hnotin : path ∉ st.fetchLog := by
      intro hmem
      have := hinv.2 path hmem
      rw [hc] at this
      simp at this
    rw [hor]
    simp only [hne, if_false, if_neg hne]
    refine ⟨?_, ?_⟩
    · simp [List.nodup_append, hinv.1, hnotin]
    · intro p hp
      rw [lookup_append_or]
      rcases List.mem_append.mp hp with hp | hp
      · have := hinv.2 p hp
        cases hl : st.cache.lookup p with
        | none => rw [hl] at this; simp at this
        | some r2 => simp [hl]
      · have hpe : p = path := by simpa using hp
        subst hpe
        simp [hc, List.lookup]

/-- `_check_placeholder_poster` preserves the scanner invariant. -/
theorem checkPlaceholderPoster_inv (oracle : FetchOracle)
    (hrel : ReliableOracle oracle) (st : ScannerState) (it : PlexItem)
    (hinv : ScannerInv st) :
    ScannerInv (checkPlaceholderPoster oracle st it).2 := by
  unfold checkPlaceholderPoster
  cases it.thumb with
  | none => simpa using hinv
  | some t =>
    by_cases he : t.isEmpty = true
    · simpa [he] using hinv
    · simp only [he, Bool.false_eq_true, if_false]
      cases hro : (getImageAspect oracle st t).1 <;>
        simpa using getImageAspect_inv oracle hrel st t hinv

/-- `_check_placeholder_background` preserves the scanner invariant. -/
theorem checkPlaceholderBackground_inv (oracle : FetchOracle)
    (hrel : ReliableOracle oracle) (st : ScannerState) (it : PlexItem)
    (hinv : ScannerInv st) :
    ScannerInv (checkPlaceholderBackground oracle st it).2 := by
  unfold checkPlaceholderBackground
  cases it.art with
  | none => simpa using hinv
  | some a =>
    by_cases he : a.isEmpty = true
    · simpa [he] using hinv
    · simp only [he, Bool.false_eq_true, if_false]
      cases hro : (getImageAspect oracle st a).1 <;>
        simpa using getImageAspect_inv oracle hrel st a hinv

/-- `scan_item` preserves the scanner invariant. -/
theorem scanItem_inv (cfg : ScannerCfg) (oracle : FetchOracle)
    (hrel : ReliableOracle oracle) (st : ScannerState) (it : PlexItem)
    (hinv : ScannerInv st) :
    ScannerInv (scanItem cfg oracle st it).2 := by
  simp only [scanItem]
  split_ifs <;>
    first
      | simpa using hinv
      | simpa using checkPlaceholderPoster_inv oracle hrel st it hinv
      | simpa using checkPlaceholderBackground_inv oracle hrel st it hinv
      | simpa using checkPlaceholderBackground_inv oracle hrel
          (checkPlaceholderPoster oracle st it).2 it
          (checkPlaceholderPoster_inv oracle hrel st it hinv)

/-- `scanSeq` preserves the scanner invariant. -/
theorem scanSeq_inv (cfg : ScannerCfg) (oracle : FetchOracle)
    (hrel : ReliableOracle oracle) (items : List PlexItem) (st : ScannerState)
    (hinv : ScannerInv st) :
    ScannerInv (scanSeq cfg oracle items st) := by
  induction items generalizing st with
  | nil => simpa [scanSeq] using hinv
  | cons it rest ih =>
    exact ih (scanItem cfg oracle st it).2 (scanItem_inv cfg oracle hrel st it hinv)

/-- Claim C8: as stated, every image path would be fetched at most once per
scanner instance across any sequence of `scan_item` calls.  Counterexample:
a failed fetch is not memoized, so scanning the same item twice fetches its
poster path twice when the first fetch fails — here the first fetch errors
and the second succeeds, and the fetch log records the path twice. -/
theorem scan_item_refetches_after_failed_fetch :
    List.count "/t1"
      (scanSeq ⟨true, true, true, true, true⟩
        (fun n => if n == 0 then none else some (200, 300))
        [⟨"3", "T", "movie", some "plex://m3", some "/t1", none, none, []⟩,
         ⟨"3", "T", "movie", some "plex://m3", some "/t1", none, none, []⟩]
        ScannerState.init).fetchLog = 2 := by
  rfl

/-- Claim C8 (amended): the per-instance memo guarantees at-most-one fetch
per image path only for fetches that succeed — whenever every fetch decodes
(reliable oracle), any sequence of `scan_item` calls on a fresh instance
fetches each path at most once; a failed fetch is not memoized and may be
retried by a later `scan_item` call. -/
theorem scan_seq_fetch_at_most_once (cfg : ScannerCfg) (oracle : FetchOracle)
    (hrel : ReliableOracle oracle) (items : List PlexItem) (path : String) :
    List.count path (scanSeq cfg oracle items ScannerState.init).fetchLog ≤ 1 := by
  have hinv0 : ScannerInv ScannerState.init := by
    constructor
    · simp [ScannerState.init]
    · intro p hp
      simp [ScannerState.init] at hp
  have := (scanSeq_inv cfg oracle hrel items ScannerState.init hinv0).1
  exact List.nodup_iff_count_le_one.mp this path

/-- Witness for the amended C8 theorem: with an always-succeeding oracle,
scanning the same item twice fetches its poster path at most once. -/
theorem scan_seq_fetch_at_most_once_witness :
    List.count "/t1"
      (scanSeq ⟨true, true, true, true, true⟩ (fun _ => some (200, 300))
        [⟨"3", "T", "movie", some "plex://m3", some "/t1", none, none, []⟩,
         ⟨"3", "T", "movie", some "plex://m3", some "/t1", none, none, []⟩]
        ScannerState.init).fetchLog ≤ 1 :=
  scan_seq_fetch_at_most_once ⟨true, true, true, true, true⟩ (fun _ => some (200, 300))
    (fun _ => ⟨200, 300, rfl, by decide⟩)
    [⟨"3", "T", "movie", some "plex://m3", some "/t1", none, none, []⟩,
     ⟨"3", "T", "movie", some "plex://m3", some "/t1", none, none, []⟩] "/t1"

/-- Claim C10: the Resolution module returns `None` whenever the main media
entry lacks a truthy `videoResolution` — even with usable width and height —
and consults the `(width, height)` ladder (in its declaration order
8K, 4K, 2K, 1080p, 720p, 576p, 480p with the 85 percent rule) only when
`videoResolution` is present, with `SD` when no ladder entry matches. -/
theorem resolution_extract_spec (m : ItemMetadata) :
    (∀ media, mainMedia m = some media → strTruthy media.videoResolution = false →
      resolutionExtract m = none) ∧
    (∀ media, mainMedia m = some media → strTruthy media.videoResolution = true →
      media.width.getD 0 ≠ 0 → media.height.getD 0 ≠ 0 →
      resolutionExtract m =
        some (ladderLookup (media.width.getD 0) (media.height.getD 0) resolutionLadder)) ∧
    (∀ w h : Int,
      (∀ e ∈ resolutionLadder,
        ¬((w : ℚ) ≥ 0.85 * (e.1.1 : ℚ) ∨ (h : ℚ) ≥ 0.85 * (e.1.2 : ℚ))) →
      ladderLookup w h resolutionLadder = "SD") := by
  refine ⟨?_, ?_, ?_⟩
  · intro media hm hfalse
    unfold resolutionExtract
    rw [hm]
    simp [hfalse]
  · intro media hm htrue hw hh
    unfold resolutionExtract
    rw [hm]
    simp only [htrue, Bool.not_true, Bool.false_eq_true, if_false]
    rw [if_neg]
    push_neg
    exact ⟨hw, hh⟩
  · intro w h hall
    have h1 := hall ((7680, 4320), "8K") (by simp [resolutionLadder])
    have h2 := hall ((3840, 2160), "4K") (by simp [resolutionLadder])
    have h3 := hall ((2560, 1440), "2K") (by simp [resolutionLadder])
    have h4 := hall ((1920, 1080), "1080p") (by simp [resolutionLadder])
    have h5 := hall ((1280, 720), "720p") (by simp [resolutionLadder])
    have h6 := hall ((720, 576), "576p") (by simp [resolutionLadder])
    have h7 := hall ((720, 480), "480p") (by simp [resolutionLadder])
    simp only [resolutionLadder, ladderLookup] at h1 h2 h3 h4 h5 h6 h7 ⊢
    rw [if_neg h1, if_neg h2, if_neg h3, if_neg h4, if_neg h5, if_neg h6, if_neg h7]

/-- Witness for the C10 theorem: `videoResolution` missing with a perfect 4K
geometry still yields `None`; `videoResolution="4k"` with the same geometry
resolves through the ladder to `4K`; a 300 × 200 geometry clears no ladder
entry and falls through to `SD`. -/
theorem resolution_extract_spec_witness :
    resolutionExtract ⟨[⟨none, some 3840, some 2160, some 10000⟩]⟩ = none ∧
    resolutionExtract ⟨[⟨some "4k", some 3840, some 2160, some 10000⟩]⟩ = some "4K" ∧
    ladderLookup 300 200 resolutionLadder = "SD" := by
  refine ⟨(resolution_extract_spec _).1 ⟨none, some 3840, some 2160, some 10000⟩ rfl rfl,
    ?_, (resolution_extract_spec ⟨[]⟩).2.2 300 200 ?_⟩
  · have h := (resolution_extract_spec ⟨[⟨some "4k", some 3840, some 2160, some 10000⟩]⟩).2.1
      ⟨some "4k", some 3840, some 2160, some 10000⟩ rfl (by decide) (by decide) (by decide)
    rw [h]
    norm_num [ladderLookup, resolutionLadder]
  · intro e he
    fin_cases he <;> norm_num

/-- Claim C7: as stated, a TMDB image with `vote_average = v` would yield a
suggestion with score `round(v × 10)`.  The code computes
`int(vote_average * 10)`, which truncates toward zero: for
`vote_average = 8.75` (exactly representable in binary floating point, so
the rational model agrees with the float computation) the code produces 87
while `round(87.5)` is 88 under both round-half-up and round-half-to-even. -/
theorem tmdb_score_not_rounded :
    (mkTMDBResult "b" ArtworkKind.poster ⟨some "/p.jpg", some "en", some 8.75⟩).score = 87 ∧
    round ((8.75 : ℚ) * 10) = 88 ∧
    (mkTMDBResult "b" ArtworkKind.poster ⟨some "/p.jpg", some "en", some 8.75⟩).score ≠
      round ((8.75 : ℚ) * 10) := by
  refine ⟨?_, ?_, ?_⟩ <;>
    norm_num [mkTMDBResult, tmdbScore, pyTrunc, round_eq, Int.floor_eq_iff]

/-- Claim C7 (amended): for every TMDB image entry with a numeric
`vote_average = v ≥ 0`, the produced suggestion has score `⌊v × 10⌋`
(truncation toward zero, which is what Python's `int()` performs). -/
theorem tmdb_score_truncates (base : String) (t : ArtworkKind) (img : TMDBImage)
    (v : ℚ) (hv : img.vote_average = some v) (h0 : 0 ≤ v) :
    (mkTMDBResult base t img).score = Int.floor (v * 10) := by
  simp only [mkTMDBResult, tmdbScore, hv, Option.getD_some]
  unfold pyTrunc
  rw [if_pos (mul_nonneg h0 (by norm_num))]

/-- Witness for the amended C7 theorem: `vote_average = 8.5` scores 85. -/
theorem tmdb_score_truncates_witness :
    (mkTMDBResult "b" ArtworkKind.poster ⟨some "/p.jpg", none, some 8.5⟩).score = 85 := by
  rw [tmdb_score_truncates "b" ArtworkKind.poster ⟨some "/p.jpg", none, some 8.5⟩ 8.5 rfl
    (by norm_num)]
  norm_num [Int.floor_eq_iff]

/-- Auxiliary: a name absent from the list has no priority index. -/
theorem priorityIndexAux_not_mem (name : String) (l : List String) (i : Int)
    (h : name ∉ l) : priorityIndexAux name l i = none := by
  induction l generalizing i with
  | nil => rfl
  | cons p rest ih =>
    have hp : ¬(p == name) = true := by
      simp only [beq_iff_eq]
      intro he
      exact h (he ▸ List.mem_cons_self p rest)
    have hrest : name ∉ rest := fun hm => h (List.mem_cons_of_mem p hm)
    simp [priorityIndexAux, ih (i + 1) hrest, hp]

/-- Auxiliary: a listed name's priority index lies within the list bounds. -/
theorem priorityIndexAux_mem_bound (name : String) (l : List String) (i : Int)
    (h : name ∈ l) :
    ∃ j, priorityIndexAux name l i = some j ∧ i ≤ j ∧ j < i + l.length := by
  induction l generalizing i with
  | nil => cases h
  | cons p rest ih =>
    by_cases hrest : name ∈ rest
    · obtain ⟨j, hj, hij, hjl⟩ := ih (i + 1) hrest
      refine ⟨j, ?_, by linarith, ?_⟩
      · simp [priorityIndexAux, hj]
      · simp only [List.length_cons]
        push_cast
        linarith
    · have hp : p = name := by
        rcases List.mem_cons.mp h with he | hm
        · exact he.symm
        · exact absurd hm hrest
      refine ⟨i, ?_, le_refl i, by simp⟩
      simp [priorityIndexAux, priorityIndexAux_not_mem name rest (i + 1) hrest, hp]

instance (pl : List String) : IsTotal ArtworkResult (artworkSortLe pl) := by
  constructor
  intro a b
  unfold artworkSortLe pairLexLe
  rcases lt_trichotomy (sortKey pl a).1 (sortKey pl b).1 with h | h | h
  · exact Or.inl (Or.inl h)
  · rcases le_total (sortKey pl a).2 (sortKey pl b).2 with h2 | h2
    · exact Or.inl (Or.inr ⟨h, h2⟩)
    · exact Or.inr (Or.inr ⟨h.symm, h2⟩)
  · exact Or.inr (Or.inl h)

instance (pl : List String) : IsTrans ArtworkResult (artworkSortLe pl) := by
  constructor
  intro a b c hab hbc
  unfold artworkSortLe pairLexLe at *
  rcases hab with h | ⟨he, h2⟩
  · rcases hbc with g | ⟨ge, g2⟩
    · exact Or.inl (h.trans g)
    · exact Or.inl (ge ▸ h)
  · rcases hbc with g | ⟨ge, g2⟩
    · exact Or.inl (he ▸ g)
    · exact Or.inr ⟨he.trans ge, h2.trans g2⟩

/-- Claim C5: the aggregator's output (a pure function of the provider
responses in registration order and the configured priority list, hence
identical across runs on identical inputs) is a permutation of the
concatenated provider results sorted by `(priority_index_of_source, -score)`;
and, provided the priority list has at most 999 entries (the sentinel), a
source absent from the list sorts strictly after every listed source. -/
theorem get_artwork_deterministic_sorted (pl : List String)
    (results : List (Except String (List ArtworkResult))) :
    (getArtwork pl results).Perm (collectResults results) ∧
    List.Sorted (artworkSortLe pl) (getArtwork pl results) ∧
    (pl.length ≤ 999 →
      ∀ a b : ArtworkResult, a.source ∉ pl → b.source ∈ pl →
        artworkSortLe pl b a ∧ ¬ artworkSortLe pl a b) := by
  refine ⟨List.perm_insertionSort _ _, List.sorted_insertionSort _ _, ?_⟩
  intro hlen a b ha hb
  have hidxa : priorityIndex pl a.source = 999 := by
    unfold priorityIndex
    rw [priorityIndexAux_not_mem a.source pl 0 ha]
    rfl
  obtain ⟨j, hj, hj0, hjl⟩ := priorityIndexAux_mem_bound b.source pl 0 hb
  have hidxb : priorityIndex pl b.source = j := by
    unfold priorityIndex
    rw [hj]
    rfl
  have hlt : (sortKey pl b).1 < (sortKey pl a).1 := by
    show priorityIndex pl b.source < priorityIndex pl a.source
    rw [hidxa, hidxb]
    have : (pl.length : Int) ≤ 999 := by exact_mod_cast hlen
    linarith
  constructor
  · exact Or.inl hlt
  · intro hcon
    rcases hcon with h | ⟨he, _⟩
    · exact absurd (h.trans hlt) (lt_irrefl _)
    · rw [he] at hlt
      exact absurd hlt (lt_irrefl _)

/-- Witness for the C5 theorem at concrete inputs: two provider outcomes
(one failed) plus a suggestion from an unknown source, with the default
priority list. -/
theorem get_artwork_deterministic_sorted_witness :
    ((getArtwork ["fanart", "mediux", "tmdb", "tvdb", "plex"]
        [Except.ok [⟨"tmdb", ArtworkKind.poster, "u1", none, none, 85, none, none⟩],
         Except.error "boom",
         Except.ok [⟨"weird", ArtworkKind.poster, "u2", none, none, 99, none, none⟩]]).Perm
      (collectResults
        [Except.ok [⟨"tmdb", ArtworkKind.poster, "u1", none, none, 85, none, none⟩],
         Except.error "boom",
         Except.ok [⟨"weird", ArtworkKind.poster, "u2", none, none, 99, none, none⟩]])) ∧
    List.Sorted (artworkSortLe ["fanart", "mediux", "tmdb", "tvdb", "plex"])
      (getArtwork ["fanart", "mediux", "tmdb", "tvdb", "plex"]
        [Except.ok [⟨"tmdb", ArtworkKind.poster, "u1", none, none, 85, none, none⟩],
         Except.error "boom",
         Except.ok [⟨"weird", ArtworkKind.poster, "u2", none, none, 99, none, none⟩]]) ∧
    (artworkSortLe ["fanart", "mediux", "tmdb", "tvdb", "plex"]
        ⟨"tmdb", ArtworkKind.poster, "u1", none, none, 85, none, none⟩
        ⟨"weird", ArtworkKind.poster, "u2", none, none, 99, none, none⟩ ∧
      ¬ artworkSortLe ["fanart", "mediux", "tmdb", "tvdb", "plex"]
        ⟨"weird", ArtworkKind.poster, "u2", none, none, 99, none, none⟩
        ⟨"tmdb", ArtworkKind.poster, "u1", none, none, 85, none, none⟩) := by
  refine ⟨(get_artwork_deterministic_sorted _ _).1,
    (get_artwork_deterministic_sorted _ _).2.1,
    (get_artwork_deterministic_sorted
        ["fanart", "mediux", "tmdb", "tvdb", "plex"] []).2.2 (by norm_num)
      ⟨"weird", ArtworkKind.poster, "u2", none, none, 99, none, none⟩
      ⟨"tmdb", ArtworkKind.poster, "u1", none, none, 85, none, none⟩
      (by decide) (by decide)⟩

/-- Auxiliary: with no cancellation requested, every flag read is false. -/
theorem cancelRead_none (k : Nat) : cancelRead none k = false := rfl

/-- Auxiliary: with no cancellation, the counting loop propagates the first
library-fetch error (`run_scan` then marks the scan failed). -/
theorem countLoop_none_first_error (l : List (Except PlexError (List EngineItem)))
    (k : Nat) (e : PlexError) (h : firstError l = some e) :
    ∃ k2, countLoop none l k = (Except.error e, k2) := by
  induction l generalizing k with
  | nil => simp [firstError] at h
  | cons f rest ih =>
    cases f with
    | error e2 =>
      have he : e2 = e := by simpa [firstError] using h
      subst he
      exact ⟨k + 1, by simp [countLoop, cancelRead_none]⟩
    | ok items =>
      have h2 : firstError rest = some e := by simpa [firstError] using h
      obtain ⟨k2, hk⟩ := ih (k + 1) h2
      exact ⟨k2, by simp [countLoop, cancelRead_none, hk]⟩

/-- Auxiliary: with no cancellation and all library fetches succeeding, the
counting loop returns all libraries. -/
theorem countLoop_none_all_ok (l : List (Except PlexError (List EngineItem)))
    (k : Nat) (h : ∀ f ∈ l, exceptIsOk f = true) :
    ∃ libs k2, countLoop none l k = (Except.ok libs, k2) := by
  induction l generalizing k with
  | nil => exact ⟨[], k, rfl⟩
  | cons f rest ih =>
    cases f with
    | error e =>
      have := h _ (List.mem_cons_self _ _)
      simp [exceptIsOk] at this
    | ok items =>
      obtain ⟨libs, k2, hk⟩ := ih (k + 1) (fun f hf => h f (List.mem_cons_of_mem _ hf))
      exact ⟨items :: libs, k2, by simp [countLoop, cancelRead_none, hk]⟩

/-- Auxiliary: with no cancellation the inner loop never takes the
cancelled exit. -/
theorem itemsLoop_none_no_cancel (cfg : ScannerCfg) (oracle : FetchOracle)
    (modules : List (ItemMetadata → Option String)) (sep : String)
    (ra re ee : Bool) (items : List EngineItem) (st : EngineState) :
    (itemsLoop cfg oracle modules sep ra re ee none items st).2 = false := by
  induction items generalizing st with
  | nil => rfl
  | cons e rest ih => simp [itemsLoop, cancelRead_none, ih]

/-- Auxiliary: with no cancellation the outer loop never reports a
cancellation. -/
theorem libsLoop_none_no_cancel (cfg : ScannerCfg) (oracle : FetchOracle)
    (modules : List (ItemMetadata → Option String)) (sep : String)
    (ra re ee : Bool) (libs : List (List EngineItem)) (st : EngineState) :
    (libsLoop cfg oracle modules sep ra re ee none libs st).2 = false := by
  induction libs generalizing st with
  | nil => rfl
  | cons items rest ih =>
    simp [libsLoop, cancelRead_none, itemsLoop_none_no_cancel, ih]

/-- Claim C3: as stated, a 401 raised by the Plex client at any point of a
running scan would fail the scan.  Counterexample: during the per-item
edition pass, `generate_edition` performs the metadata fetch inside its own
`try/except`, so a `PlexAuthenticationError` raised there is caught, logged,
and turned into `None` — the scan continues and completes. -/
theorem auth_error_swallowed_in_edition_scan :
    let out := executeScan ⟨true, true, true, true, true⟩ (fun _ => none) [] " . "
      ⟨false, true, true,
        [Except.ok [⟨⟨"10", "M", "movie", some "plex://x", none, none, none, []⟩,
          Except.error PlexError.auth⟩]], none⟩
    out.finalStatus = ScanFinal.completed ∧ out.authSeen = 1 ∧ out.processed = 1 :=
  ⟨rfl, rfl, rfl⟩

/-- Claim C3 (amended): a 401 from the Plex client is fatal exactly when it
is raised during library enumeration — the only place a Plex-client
exception propagates out of `_execute_scan`; with enumeration succeeding,
the scan completes even when per-item edition fetches raise 401 (those are
swallowed inside `generate_edition`). -/
theorem auth_error_fatal_only_in_enumeration (cfg : ScannerCfg)
    (oracle : FetchOracle) (modules : List (ItemMetadata → Option String))
    (sep : String) (inp : ScanInput) :
    (inp.cancelFrom = none → firstError inp.libraryFetch = some PlexError.auth →
      (executeScan cfg oracle modules sep inp).finalStatus = ScanFinal.failed ∧
      0 < (executeScan cfg oracle modules sep inp).authSeen) ∧
    (inp.cancelFrom = none → (∀ f ∈ inp.libraryFetch, exceptIsOk f = true) →
      (executeScan cfg oracle modules sep inp).finalStatus = ScanFinal.completed) := by
  constructor
  · intro hcf herr
    obtain ⟨k2, hk⟩ := countLoop_none_first_error inp.libraryFetch 0 _ herr
    unfold executeScan
    rw [hcf, hk]
    exact ⟨rfl, by simp⟩
  · intro hcf hok
    obtain ⟨libs, k2, hk⟩ := countLoop_none_all_ok inp.libraryFetch 0 hok
    unfold executeScan
    rw [hcf, hk]
    simp [libsLoop_none_no_cancel]

/-- Witness for the amended C3 theorem: an enumeration-time 401 fails the
scan; a scan whose only library fetch succeeds completes. -/
theorem auth_error_fatal_only_in_enumeration_witness :
    (executeScan ⟨true, true, true, true, true⟩ (fun _ => none) [] " . "
      ⟨true, false, false, [Except.error PlexError.auth], none⟩).finalStatus
        = ScanFinal.failed ∧
    (executeScan ⟨true, true, true, true, true⟩ (fun _ => none) [] " . "
      ⟨false, false, false, [Except.ok []], none⟩).finalStatus
        = ScanFinal.completed :=
  ⟨((auth_error_fatal_only_in_enumeration ⟨true, true, true, true, true⟩
      (fun _ => none) [] " . "
      ⟨true, false, false, [Except.error PlexError.auth], none⟩).1 rfl rfl).1,
   (auth_error_fatal_only_in_enumeration ⟨true, true, true, true, true⟩
      (fun _ => none) [] " . "
      ⟨false, false, false, [Except.ok []], none⟩).2 rfl
     (by
       intro f hf
       simp only [List.mem_singleton] at hf
       subst hf
       rfl)⟩

/-- Auxiliary: `processItem` leaves the flag-read counter unchanged. -/
theorem processItem_k (cfg : ScannerCfg) (oracle : FetchOracle)
    (modules : List (ItemMetadata → Option String)) (sep : String)
    (ra re ee : Bool) (st : EngineState) (eit : EngineItem) :
    (processItem cfg oracle modules sep ra re ee st eit).k = st.k := rfl

/-- Auxiliary: `processItem` increments the processed counter by one. -/
theorem processItem_processed (cfg : ScannerCfg) (oracle : FetchOracle)
    (modules : List (ItemMetadata → Option String)) (sep : String)
    (ra re ee : Bool) (st : EngineState) (eit : EngineItem) :
    (processItem cfg oracle modules sep ra re ee st eit).processed
      = st.processed + 1 := rfl

/-- Auxiliary: when the first true flag read falls on one of this library's
item checks, the inner loop takes the `_mark_scan_cancelled` exit, having
processed exactly the items that preceded the observation. -/
theorem itemsLoop_first_true_cancels (cfg : ScannerCfg) (oracle : FetchOracle)
    (modules : List (ItemMetadata → Option String)) (sep : String)
    (ra re ee : Bool) (c : Nat) (items : List EngineItem) (st : EngineState)
    (hc : st.k ≤ c) (hcl : c < st.k + items.length) :
    (itemsLoop cfg oracle modules sep ra re ee (some c) items st).2 = true ∧
    (itemsLoop cfg oracle modules sep ra re ee (some c) items st).1.processed
      = st.processed + (c - st.k) ∧
    (itemsLoop cfg oracle modules sep ra re ee (some c) items st).1.k = c + 1 := by
  induction items generalizing st with
  | nil =>
    exfalso
    simp only [List.length_nil, Nat.add_zero] at hcl
    omega
  | cons e rest ih =>
    by_cases he : c = st.k
    · have hcr : cancelRead (some c) st.k = true := by
        simp [cancelRead]
        omega
      refine ⟨?_, ?_, ?_⟩ <;> simp only [itemsLoop, hcr, if_true] <;>
        first
        | rfl
        | omega
    · have hlt : st.k < c := by omega
      have hcr : cancelRead (some c) st.k = false := by
        simp [cancelRead]
        omega
      have hk2 : (processItem cfg oracle modules sep ra re ee
          { st with k := st.k + 1 } e).k = st.k + 1 := rfl
      obtain ⟨h1, h2, h3⟩ := ih (processItem cfg oracle modules sep ra re ee
          { st with k := st.k + 1 } e) (by rw [hk2]; omega)
        (by rw [hk2]; simp only [List.length_cons] at hcl; omega)
      refine ⟨?_, ?_, ?_⟩ <;> simp only [itemsLoop, hcr, Bool.false_eq_true, if_false]
      · exact h1
      · rw [h2, processItem_processed, hk2]
        dsimp only
        omega
      · exact h3

/-- Claim C4: as stated, a successful `cancel_scan` would always finalize
the scan row as cancelled with a `scan_cancelled` broadcast once the loop
observes the flag.  Counterexample: when the first true flag read falls on
the outer library-boundary check (here read 4, between two one-item
libraries), the loop merely breaks and falls through to
`_mark_scan_completed`: an item is left unprocessed, yet the row reads
completed and no `scan_cancelled` event is broadcast. -/
theorem cancel_at_library_boundary_completes :
    let out := executeScan ⟨true, true, true, true, true⟩ (fun _ => none) [] " . "
      ⟨false, false, false,
        [Except.ok [⟨⟨"1", "A", "movie", some "plex://a", none, none, none, []⟩,
          Except.ok []⟩],
         Except.ok [⟨⟨"2", "B", "movie", some "plex://b", none, none, none, []⟩,
          Except.ok []⟩]],
        some 4⟩
    out.finalStatus = ScanFinal.completed ∧
    out.finalStatus ≠ ScanFinal.cancelled ∧
    out.processed = 1 ∧ out.total = 2 ∧ 4 < out.kEnd ∧
    "scan_cancelled" ∉ out.broadcasts :=
  ⟨rfl, by decide, rfl, rfl, by decide, by decide⟩

/-- Claim C4 (amended): `cancel_scan` sets the flag and opens the pause gate
(`_scan_task` is never assigned, so its `cancel()` call is a no-op and no
in-flight call is aborted); the loop then processes no further items, and
the finalization depends on which check first observes the flag: an
item-iteration check finalizes the row as cancelled with `completed_at` set
and a `scan_cancelled` broadcast — proved here for a single-library scan
whenever the first true read lands on an item check — while a
library-boundary or counting-phase observation falls through to the
completed finalization. -/
theorem cancel_at_item_check_finalizes_cancelled (cfg : ScannerCfg)
    (oracle : FetchOracle) (modules : List (ItemMetadata → Option String))
    (sep : String) (ra re ee : Bool) (items : List EngineItem) (c : Nat)
    (h2 : 2 ≤ c) (hlen : c ≤ items.length + 1) :
    (executeScan cfg oracle modules sep
      ⟨ra, re, ee, [Except.ok items], some c⟩).finalStatus = ScanFinal.cancelled ∧
    (executeScan cfg oracle modules sep
      ⟨ra, re, ee, [Except.ok items], some c⟩).processed = c - 2 ∧
    (executeScan cfg oracle modules sep
      ⟨ra, re, ee, [Except.ok items], some c⟩).completedAtSet = true ∧
    "scan_cancelled" ∈ (executeScan cfg oracle modules sep
      ⟨ra, re, ee, [Except.ok items], some c⟩).broadcasts := by
  have hcr0 : cancelRead (some c) 0 = false := by
    simp [cancelRead]
    omega
  have hcount : countLoop (some c) [Except.ok items] 0 = (Except.ok [items], 1) := by
    simp [countLoop, hcr0, cancelRead_none]
  have hcr1 : cancelRead (some c) 1 = false := by
    simp [cancelRead]
    omega
  obtain ⟨ht, hp, hk⟩ := itemsLoop_first_true_cancels cfg oracle modules sep ra re ee c
    items ⟨1 + 1, 0, 0, 0, ScannerState.init, ["scan_progress"], 0⟩
    (by simp; omega) (by simp; omega)
  unfold executeScan
  simp only [hcount, libsLoop, hcr1, Bool.false_eq_true, if_false]
  simp only [ht, if_true]
  refine ⟨?_, ?_, ?_, ?_⟩ <;>
    first
    | trivial
    | (simpa using hp)

/-- Witness for the amended C4 theorem: three items, flag first observed at
read 3 (the second item's check) — the scan is cancelled with exactly one
item processed and the `scan_cancelled` broadcast emitted. -/
theorem cancel_at_item_check_finalizes_cancelled_witness :
    (executeScan ⟨true, true, true, true, true⟩ (fun _ => none) [] " . "
      ⟨false, false, false,
        [Except.ok [⟨⟨"1", "A", "movie", some "plex://a", none, none, none, []⟩,
            Except.ok []⟩,
          ⟨⟨"2", "B", "movie", some "plex://b", none, none, none, []⟩, Except.ok []⟩,
          ⟨⟨"3", "C", "movie", some "plex://c", none, none, none, []⟩,
            Except.ok []⟩]], some 3⟩).finalStatus = ScanFinal.cancelled ∧
    (executeScan ⟨true, true, true, true, true⟩ (fun _ => none) [] " . "
      ⟨false, false, false,
        [Except.ok [⟨⟨"1", "A", "movie", some "plex://a", none, none, none, []⟩,
            Except.ok []⟩,
          ⟨⟨"2", "B", "movie", some "plex://b", none, none, none, []⟩, Except.ok []⟩,
          ⟨⟨"3", "C", "movie", some "plex://c", none, none, none, []⟩,
            Except.ok []⟩]], some 3⟩).processed = 1 := by
  have h := cancel_at_item_check_finalizes_cancelled ⟨true, true, true, true, true⟩
    (fun _ => none) [] " . " false false false
    [⟨⟨"1", "A", "movie", some "plex://a", none, none, none, []⟩, Except.ok []⟩,
     ⟨⟨"2", "B", "movie", some "plex://b", none, none, none, []⟩, Except.ok []⟩,
     ⟨⟨"3", "C", "movie", some "plex://c", none, none, none, []⟩, Except.ok []⟩]
    3 (by omega) (by simp)
  exact ⟨h.1, h.2.1⟩

/-- Witness for the C9 theorem: an item with a `local://` GUID and all checks
enabled yields exactly the `no_match` singleton. -/
theorem scan_item_no_match_short_circuit_witness :
    scanItem ⟨true, true, true, true, true⟩ (fun _ => none) ScannerState.init
        ⟨"2", "S2", "movie", some "local://123", none, none, none, []⟩
      = ([IssueType.NO_MATCH], ScannerState.init) :=
  scan_item_no_match_short_circuit ⟨true, true, true, true, true⟩ (fun _ => none)
    ScannerState.init ⟨"2", "S2", "movie", some "local://123", none, none, none, []⟩
    (by decide)

end Metafix
